import Mathlib

/-!
Etherfi AVS: operator node and aggregator.

A shallow embedding of `operator/main.go` and `aggregator/main.go`.

* Go errors are strings; a function returning `(T, error)` returns `Except String T`.
* `*big.Int` and `int` values are `Int`; byte slices are `List Nat`.
* Calls that leave the repository (RPC client, HTTP client, `encoding/json`, `godotenv`,
  the `crypto` package) are fields of a `Deps` record passed as an argument, so every
  theorem holds for every behaviour of those collaborators.
* A run-time panic (index out of range) is an explicit outcome.
-/

namespace Etherfi

/-! ## Types shared by both programs -/

deriving instance DecidableEq for Except

/-- The type `common.Address`, kept as its bytes. -/
structure Address where
  bytes : List Nat
deriving DecidableEq, Repr

/-- The type `ecdsa.PrivateKey`, kept as its secret scalar. -/
structure PrivateKey where
  D : Nat
deriving DecidableEq, Repr

/-- The type `ethclient.Client`, kept as the endpoint it was dialled with. -/
structure Client where
  endpoint : String
deriving DecidableEq, Repr

/-- The process environment: variable names with their values. -/
abbrev Env := List (String × String)

/-- The call `os.Getenv`: the value of the variable, the empty string when it is unset. -/
def Getenv (env : Env) (key : String) : String :=
  (env.lookup key).getD ""

/-- The call `strings.TrimPrefix`. -/
def TrimPrefix (s pre : String) : String :=
  if s.startsWith pre then s.drop pre.length else s

/-- The loop over `requiredEnvVars` of both constructors: the error of the first variable
whose value is empty, if there is one. -/
def checkRequired (env : Env) : List String → Option String
  | [] => none
  | envVar :: rest =>
    if Getenv env envVar == "" then
      some ("required environment variable " ++ envVar ++ " is not set")
    else checkRequired env rest

/-! ## aggregator/main.go -/

namespace aggregator

/-- Aggregator collects operator signatures and submits to contract. -/
structure Aggregator where
  client : Client
  privateKey : PrivateKey
  address : Address
  contractAddr : Address
deriving DecidableEq, Repr

/-- Validation data from operator. -/
structure OperatorValidation where
  TaskID : Int
  IsValid : Bool
  ConfidenceScore : Int
  Risks : List String
  AlternativeStrategy : String
  OperatorAddress : Address
  Signature : List Nat
deriving DecidableEq, Repr

/-- The transactor built by `bind.NewKeyedTransactorWithChainID`, with the two fields the
code sets. -/
structure TransactOpts where
  From : Address
  GasPrice : Nat
  GasLimit : Nat
deriving DecidableEq, Repr

/-- Collaborators of the aggregator outside the repository. -/
structure Deps where
  godotenvLoad : String → Env → Env
  Dial : String → Except String Client
  HexToECDSA : String → Except String PrivateKey
  PubkeyToAddress : PrivateKey → Address
  HexToAddress : String → Address
  NewKeyedTransactorWithChainID : PrivateKey → Int → Except String TransactOpts
  SuggestGasPrice : Client → Except String Nat

def requiredEnvVars : List String :=
  ["SEPOLIA_RPC_URL", "AGGREGATOR_PRIVATE_KEY", "AVS_CONTRACT_ADDRESS"]

def NewAggregator (d : Deps) (procEnv : Env) : Except String Aggregator :=
  -- Load environment variables
  let env := d.godotenvLoad "../.env.local" procEnv
  -- Validate required environment variables
  match checkRequired env requiredEnvVars with
  | some err => .error err
  | none =>
    -- Connect to Ethereum
    match d.Dial (Getenv env "SEPOLIA_RPC_URL") with
    | .error err => .error ("failed to connect to Ethereum: " ++ err)
    | .ok client =>
      -- Load private key
      match d.HexToECDSA (TrimPrefix (Getenv env "AGGREGATOR_PRIVATE_KEY") "0x") with
      | .error err => .error ("invalid private key: " ++ err)
      | .ok privateKey =>
        .ok { client := client
              privateKey := privateKey
              address := d.PubkeyToAddress privateKey
              contractAddr := d.HexToAddress (Getenv env "AVS_CONTRACT_ADDRESS") }

/-- What `SubmitValidation` has prepared for `submitValidationResult` when it returns nil:
the fields of `val` it logs, the transactor, and the two locals `operators` and
`aggregatedSignature`. -/
structure Submission where
  taskId : Int
  isValid : Bool
  confidenceScore : Int
  auth : TransactOpts
  operators : List Address
  aggregatedSignature : List Nat
deriving DecidableEq, Repr

/-- Submit aggregated validation to contract. -/
def Aggregator.SubmitValidation (agg : Aggregator) (d : Deps)
    (validations : List OperatorValidation) : Except String Submission :=
  match validations with
  | [] => .error "no validations to submit"
  -- For MVP, take first validation
  | val :: _ =>
    -- Get auth transactor
    match d.NewKeyedTransactorWithChainID agg.privateKey 11155111 with
    | .error err => .error err
    | .ok auth =>
      -- Set gas parameters
      match d.SuggestGasPrice agg.client with
      | .error err => .error err
      | .ok gasPrice =>
        .ok { taskId := val.TaskID
              isValid := val.IsValid
              confidenceScore := val.ConfidenceScore
              auth := { auth with GasPrice := gasPrice, GasLimit := 300000 }
              operators := [val.OperatorAddress]
              aggregatedSignature := val.Signature }

/-- Simple aggregation logic (MVP): the first validation. -/
def Aggregator.AggregateValidations (_agg : Aggregator)
    (validations : List OperatorValidation) : Except String OperatorValidation :=
  match validations with
  | [] => .error "no validations to aggregate"
  | val :: _ => .ok val

end aggregator

/-! ## operator/main.go -/

namespace operator

/-- The type `common.Hash`, kept as its bytes. -/
structure Hash where
  bytes : List Nat
deriving DecidableEq, Repr

/-- The fields of `types.Log` the operator reads. -/
structure Log where
  TxHash : Hash
  Topics : List Hash
deriving DecidableEq, Repr

/-- Claude AI response. -/
structure ClaudeValidation where
  IsValid : Bool
  ConfidenceScore : Int
  Risks : List String
  AlternativeStrategy : String
deriving DecidableEq, Repr

structure Message where
  Role : String
  Content : String
deriving DecidableEq, Repr

structure ClaudeRequest where
  Model : String
  MaxTokens : Int
  Messages : List Message
deriving DecidableEq, Repr

/-- The type `ClaudeResponse`: the `text` of each element of `content`. -/
structure ClaudeResponse where
  Content : List String
deriving DecidableEq, Repr

/-- Operator node. -/
structure Operator where
  client : Client
  privateKey : PrivateKey
  address : Address
  contractAddr : Address
  claudeAPIKey : String
deriving DecidableEq, Repr

structure FilterQuery where
  Addresses : List Address
  Topics : List (List Hash)
deriving DecidableEq, Repr

structure HTTPRequest where
  Method : String
  URL : String
  Body : String
  Header : List (String × String)
deriving DecidableEq, Repr

/-- An HTTP response: its status code and what `io.ReadAll` gives for its body. -/
structure HTTPResponse where
  StatusCode : Nat
  Body : Except String String

/-- Collaborators of the operator outside the repository that do not touch the network
during a task. -/
structure Deps where
  godotenvLoad : String → Env → Env
  Dial : String → Except String Client
  HexToECDSA : String → Except String PrivateKey
  PubkeyToAddress : PrivateKey → Address
  HexToAddress : String → Address
  Keccak256Hash : List Nat → Hash
  Sign : List Nat → PrivateKey → Except String (List Nat)
  SubscribeFilterLogs : Client → FilterQuery → Except String Unit

/-- What the network and `encoding/json` do during one call of `validateWithClaude`. -/
structure Net where
  Marshal : ClaudeRequest → Except String String
  NewRequest : String → String → String → Except String HTTPRequest
  Do : HTTPRequest → Except String HTTPResponse
  UnmarshalResponse : String → Except String ClaudeResponse
  UnmarshalValidation : String → Except String ClaudeValidation

/-- The bytes of a Go string. -/
def bytesOf (s : String) : List Nat :=
  s.toUTF8.toList.map UInt8.toNat

/-- The decimal digit `d` as a character. -/
def digitChar (d : Nat) : Char := Char.ofNat (48 + d)

/-- Decimal digits of `n`, most significant first; `fuel` bounds the number of digits. -/
def decimalDigits : Nat → Nat → List Char
  | 0, _ => []
  | fuel + 1, n =>
    if n < 10 then [digitChar n] else decimalDigits fuel (n / 10) ++ [digitChar (n % 10)]

/-- Base-10 text of a natural number. -/
def fmtNat (n : Nat) : String := String.mk (decimalDigits (n + 1) n)

/-- Base-10 text of an integer, as `big.Int.String` and the verb `%d` print it. -/
def fmtInt : Int → String
  | Int.ofNat n => fmtNat n
  | Int.negSucc n => "-" ++ fmtNat (n + 1)

/-- How the verb `%v` prints a bool. -/
def fmtBool (b : Bool) : String := if b then "true" else "false"

/-- The call `new(big.Int).SetBytes`: the big-endian value of the bytes. -/
def SetBytes (bs : List Nat) : Int :=
  Int.ofNat (bs.foldl (fun acc b => acc * 256 + b) 0)

def requiredEnvVars : List String :=
  ["SEPOLIA_RPC_URL", "OPERATOR_PRIVATE_KEY", "AVS_CONTRACT_ADDRESS", "ANTHROPIC_API_KEY"]

def NewOperator (d : Deps) (procEnv : Env) : Except String Operator :=
  -- Load environment variables
  let env := d.godotenvLoad "../.env.local" procEnv
  -- Validate required environment variables
  match checkRequired env requiredEnvVars with
  | some err => .error err
  | none =>
    -- Connect to Ethereum
    match d.Dial (Getenv env "SEPOLIA_RPC_URL") with
    | .error err => .error ("failed to connect to Ethereum: " ++ err)
    | .ok client =>
      -- Load private key
      match d.HexToECDSA (TrimPrefix (Getenv env "OPERATOR_PRIVATE_KEY") "0x") with
      | .error err => .error ("invalid private key: " ++ err)
      | .ok privateKey =>
        .ok { client := client
              privateKey := privateKey
              address := d.PubkeyToAddress privateKey
              contractAddr := d.HexToAddress (Getenv env "AVS_CONTRACT_ADDRESS")
              claudeAPIKey := Getenv env "ANTHROPIC_API_KEY" }

/-- The prompt built by `fmt.Sprintf` in `validateWithClaude`. -/
def prompt (taskID : Int) : String :=
  "You are a DeFi strategy validator. Analyze this staking strategy:\n\nTask ID: "
    ++ fmtInt taskID
    ++ "\n\nProvide a JSON response with:\n\x7b\n  \"isValid\": boolean,\n"
    ++ "  \"confidenceScore\": number (0-100),\n  \"risks\": [\"risk1\", \"risk2\"],\n"
    ++ "  \"alternativeStrategy\": \"suggestion\"\n\x7d\n\nBe concise and practical."

/-- The value returned when the answer text is not JSON for a `ClaudeValidation`. -/
def fallbackValidation : ClaudeValidation :=
  { IsValid := true
    ConfidenceScore := 75
    Risks := ["Strategy not fully validated"]
    AlternativeStrategy := "Consider waiting for better gas prices" }

/-- The last step of `validateWithClaude` (Parse JSON from Claude response): the second
`json.Unmarshal` and the two returns after it. -/
def parseValidation (Unmarshal : String → Except String ClaudeValidation) (text : String) :
    Except String ClaudeValidation :=
  match Unmarshal text with
  -- Fallback if Claude does not return pure JSON
  | .error _ => .ok fallbackValidation
  | .ok validation => .ok validation

/-- Validate strategy with Claude AI. -/
def Operator.validateWithClaude (op : Operator) (net : Net) (taskID : Int) :
    Except String ClaudeValidation :=
  let reqBody : ClaudeRequest :=
    { Model := "claude-sonnet-4-20250514"
      MaxTokens := 2048
      Messages := [{ Role := "user", Content := prompt taskID }] }
  match net.Marshal reqBody with
  | .error err => .error err
  | .ok jsonData =>
    match net.NewRequest "POST" "https://api.anthropic.com/v1/messages" jsonData with
    | .error err => .error err
    | .ok req =>
      let req := { req with Header := req.Header ++
        [("Content-Type", "application/json"), ("x-api-key", op.claudeAPIKey),
         ("anthropic-version", "2023-06-01")] }
      match net.Do req with
      | .error err => .error err
      | .ok resp =>
        match resp.Body with
        | .error err => .error err
        | .ok body =>
          if resp.StatusCode != 200 then .error ("Claude API error: " ++ body)
          else
            match net.UnmarshalResponse body with
            | .error err => .error err
            | .ok claudeResp =>
              match claudeResp.Content with
              | [] => .error "empty response from Claude"
              | text :: _ => parseValidation net.UnmarshalValidation text

/-- The string `message` that `signValidation` hashes. -/
def validationMessage (taskID : Int) (validation : ClaudeValidation) : String :=
  "TaskID:" ++ fmtInt taskID ++ ",Valid:" ++ fmtBool validation.IsValid
    ++ ",Score:" ++ fmtInt validation.ConfidenceScore

/-- Sign validation result. -/
def Operator.signValidation (op : Operator) (d : Deps) (taskID : Int)
    (validation : ClaudeValidation) : Except String (List Nat) :=
  -- Create hash of validation data
  let message := validationMessage taskID validation
  let hash := d.Keccak256Hash (bytesOf message)
  -- Sign with operator private key
  match d.Sign hash.bytes op.privateKey with
  | .error err => .error err
  | .ok signature => .ok signature

/-- A call that `handleTask` makes on behalf of a task. -/
inductive Call where
  | validate (taskID : Int)
  | sign (taskID : Int) (validation : ClaudeValidation)
deriving DecidableEq, Repr

/-- How a function body ends: it returns, or the Go runtime panics. -/
inductive Exit where
  | returned
  | panicked (msg : String)
deriving DecidableEq, Repr

/-- Handle validation task: the calls made, in order, and how the body ends. -/
def Operator.handleTask (op : Operator) (d : Deps) (net : Net) (vLog : Log) :
    List Call × Exit :=
  -- Parse task ID from topics
  match vLog.Topics[1]? with
  | none =>
    ([], .panicked ("index out of range [1] with length " ++ fmtNat vLog.Topics.length))
  | some topic =>
    let taskID := SetBytes topic.bytes
    -- Validate with Claude AI
    match op.validateWithClaude net taskID with
    | .error _ => ([.validate taskID], .returned)
    | .ok validation =>
      -- Sign validation (simplified for MVP)
      match op.signValidation d taskID validation with
      | .error _ => ([.validate taskID, .sign taskID validation], .returned)
      | .ok _ => ([.validate taskID, .sign taskID validation], .returned)

/-- One `select` case taken by the loop of `ListenForTasks`. A delivered log comes with
what the network does while it is handled. -/
inductive Event where
  | subErr (err : String)
  | log (vLog : Log) (net : Net)
  | ctxDone (err : String)

/-- How `ListenForTasks` ends on a finite sequence of events: it returns an error, a
panic in `handleTask` ends the process, or it is still blocked in `select`. -/
inductive Outcome where
  | returned (err : String)
  | panicked (msg : String)
  | listening
deriving DecidableEq, Repr

/-- The `for`/`select` loop of `ListenForTasks`. -/
def Operator.listenLoop (op : Operator) (d : Deps) : List Event → List Call × Outcome
  | [] => ([], .listening)
  | .subErr err :: _ => ([], .returned err)
  | .ctxDone err :: _ => ([], .returned err)
  | .log vLog net :: rest =>
    match op.handleTask d net vLog with
    | (calls, .panicked msg) => (calls, .panicked msg)
    | (calls, .returned) =>
      let (more, out) := op.listenLoop d rest
      (calls ++ more, out)

/-- The text whose hash is the topic of `NewValidationTask`. -/
def eventSignatureText : String :=
  "NewValidationTask(uint256,address,(string,string,uint256,uint256,uint256)," ++
    "(uint8,string,string,uint256,uint256),uint256)"

/-- Listen for validation tasks. -/
def Operator.ListenForTasks (op : Operator) (d : Deps) (events : List Event) :
    List Call × Outcome :=
  -- Event signature for NewValidationTask
  let eventSignature := d.Keccak256Hash (bytesOf eventSignatureText)
  let query : FilterQuery :=
    { Addresses := [op.contractAddr], Topics := [[eventSignature]] }
  match d.SubscribeFilterLogs op.client query with
  | .error err => ([], .returned ("failed to subscribe to logs: " ++ err))
  | .ok _ => op.listenLoop d events

/-- The task ids passed to `validateWithClaude`, in call order. -/
def validatedTasks (calls : List Call) : List Int :=
  calls.filterMap fun c => match c with
    | .validate t => some t
    | .sign _ _ => none

/-- The task ids passed to `signValidation`, in call order. -/
def signedTasks (calls : List Call) : List Int :=
  calls.filterMap fun c => match c with
    | .validate _ => none
    | .sign t _ => some t

/-- The number that a string of decimal digits denotes. -/
def digitsValue (cs : List Char) : Nat :=
  cs.foldl (fun acc c => acc * 10 + (c.toNat - 48)) 0

/-- The task ids of the logs the loop gets to handle: those delivered before the first
subscription error, cancellation, or log without a second topic. -/
def deliveredTasks : List Event → List Int
  | [] => []
  | .subErr _ :: _ => []
  | .ctxDone _ :: _ => []
  | .log vLog _ :: rest =>
    match vLog.Topics[1]? with
    | none => []
    | some topic => SetBytes topic.bytes :: deliveredTasks rest

end operator

/-! ## Concrete inputs used by the examples -/

namespace aggregator

/-- An aggregator value; no aggregation function reads its fields. -/
def agg0 : Aggregator :=
  { client := ⟨"http://localhost:8545"⟩
    privateKey := ⟨1⟩
    address := ⟨List.replicate 20 1⟩
    contractAddr := ⟨List.replicate 20 2⟩ }

/-- The validation `mockValidation` of `main`: its signature is the 14 bytes of
the text mock_signature. -/
def mockValidation : OperatorValidation :=
  { TaskID := 1
    IsValid := true
    ConfidenceScore := 85
    Risks := ["High gas costs", "Market volatility"]
    AlternativeStrategy := "Wait for gas prices below 30 gwei"
    OperatorAddress :=
      ⟨[0x12, 0x34, 0x56, 0x78, 0x90, 0x12, 0x34, 0x56, 0x78, 0x90,
        0x12, 0x34, 0x56, 0x78, 0x90, 0x12, 0x34, 0x56, 0x78, 0x90]⟩
    Signature := [109, 111, 99, 107, 95, 115, 105, 103, 110, 97, 116, 117, 114, 101] }

/-- Collaborators under which the transactor and the gas price are obtained. -/
def deps0 : Deps :=
  { godotenvLoad := fun _ env => env
    Dial := fun url => .ok ⟨url⟩
    HexToECDSA := fun _ => .ok ⟨1⟩
    PubkeyToAddress := fun _ => ⟨List.replicate 20 1⟩
    HexToAddress := fun _ => ⟨List.replicate 20 2⟩
    NewKeyedTransactorWithChainID := fun _ _ => .ok ⟨⟨List.replicate 20 1⟩, 0, 0⟩
    SuggestGasPrice := fun _ => .ok 1000000000 }

/-- A signature check that only looks at the length: an ECDSA signature of the `crypto`
package has 65 bytes, so a signature of another length verifies under no key. -/
def signatureLengthOK (v : OperatorValidation) : Bool :=
  v.Signature.length == 65

/-- Operator A votes valid with confidence 90 on task 1. -/
def voteA : OperatorValidation :=
  { TaskID := 1, IsValid := true, ConfidenceScore := 90, Risks := ["gas"]
    AlternativeStrategy := "", OperatorAddress := ⟨List.replicate 20 0xAA⟩
    Signature := List.replicate 65 7 }

/-- Operator B votes invalid with confidence 60 on task 1. -/
def voteB : OperatorValidation :=
  { TaskID := 1, IsValid := false, ConfidenceScore := 60, Risks := ["slippage"]
    AlternativeStrategy := "wait", OperatorAddress := ⟨List.replicate 20 0xBB⟩
    Signature := List.replicate 65 8 }

/-- Operator C votes valid with confidence 70 on task 1. -/
def voteC : OperatorValidation :=
  { TaskID := 1, IsValid := true, ConfidenceScore := 70, Risks := []
    AlternativeStrategy := "", OperatorAddress := ⟨List.replicate 20 0xCC⟩
    Signature := List.replicate 65 9 }

/-- The opinion (true, 50) of the tie scenario. -/
def tieTrue : OperatorValidation :=
  { TaskID := 2, IsValid := true, ConfidenceScore := 50, Risks := []
    AlternativeStrategy := "", OperatorAddress := ⟨List.replicate 20 0xAA⟩
    Signature := List.replicate 65 7 }

/-- The opinion (false, 50) of the tie scenario. -/
def tieFalse : OperatorValidation :=
  { TaskID := 2, IsValid := false, ConfidenceScore := 50, Risks := []
    AlternativeStrategy := "hold", OperatorAddress := ⟨List.replicate 20 0xBB⟩
    Signature := List.replicate 65 8 }

/-- The majority vote as the reduction rule words it: true exactly when strictly more than
half of the validations have `IsValid = true`, so that a tie gives false. -/
def specMajorityIsValid (validations : List OperatorValidation) : Bool :=
  decide (validations.length < 2 * (validations.filter (fun v => v.IsValid)).length)

end aggregator

namespace operator

/-- An operator value. -/
def op0 : Operator :=
  { client := ⟨"ws://localhost:8546"⟩
    privateKey := ⟨1⟩
    address := ⟨List.replicate 20 1⟩
    contractAddr := ⟨List.replicate 20 2⟩
    claudeAPIKey := "key" }

/-- Collaborators under which dialling, key loading, subscribing and signing succeed. -/
def deps0 : Deps :=
  { godotenvLoad := fun _ env => env
    Dial := fun url => .ok ⟨url⟩
    HexToECDSA := fun _ => .ok ⟨1⟩
    PubkeyToAddress := fun _ => ⟨List.replicate 20 1⟩
    HexToAddress := fun _ => ⟨List.replicate 20 2⟩
    Keccak256Hash := fun bs => ⟨bs.take 32⟩
    Sign := fun hash key => .ok (key.D :: hash)
    SubscribeFilterLogs := fun _ _ => .ok () }

/-- An answer text that is JSON for a `ClaudeValidation` with `confidenceScore` 150. -/
def overconfidentAnswer : String :=
  "\x7b\"isValid\":true,\"confidenceScore\":150,\"risks\":[],\"alternativeStrategy\":\"\"\x7d"

/-- An answer text that is JSON for a `ClaudeValidation` with `confidenceScore` -5. -/
def negativeAnswer : String :=
  "\x7b\"isValid\":false,\"confidenceScore\":-5,\"risks\":[],\"alternativeStrategy\":\"\"\x7d"

/-- An answer text that is not JSON. -/
def proseAnswer : String := "The strategy looks reasonable to me."

/-- What `json.Unmarshal` into a `ClaudeValidation` gives on the three answer texts above:
the two JSON objects decode field by field with a nil error, the prose is a syntax error.
Other texts are not used and are reported as errors here. -/
def sampleUnmarshal (text : String) : Except String ClaudeValidation :=
  if text = overconfidentAnswer then .ok ⟨true, 150, [], ""⟩
  else if text = negativeAnswer then .ok ⟨false, -5, [], ""⟩
  else .error "invalid character looking for beginning of value"

/-- A network on which the API answers 200 with `answer` as the text of its first content
block. -/
def sampleNet (answer : String) : Net :=
  { Marshal := fun _ => .ok "request"
    NewRequest := fun method url body => .ok ⟨method, url, body, []⟩
    Do := fun _ => .ok ⟨200, .ok "response"⟩
    UnmarshalResponse := fun _ => .ok ⟨[answer]⟩
    UnmarshalValidation := sampleUnmarshal }

/-- The topic of the event signature, as 32 bytes. -/
def sigTopic : Hash := ⟨List.replicate 32 0xEE⟩

/-- The 32-byte topic that holds task id 5. -/
def taskTopic5 : Hash := ⟨List.replicate 31 0 ++ [5]⟩

/-- A task-created log for task 5. -/
def logTask5 : Log := { TxHash := ⟨List.replicate 32 1⟩, Topics := [sigTopic, taskTopic5] }

/-- A log that carries the event signature topic only. -/
def logShort : Log := { TxHash := ⟨List.replicate 32 3⟩, Topics := [sigTopic] }

/-- Two validations that differ in `Risks` and in `AlternativeStrategy` only. -/
def cautious : ClaudeValidation :=
  { IsValid := true, ConfidenceScore := 85, Risks := ["High gas costs"]
    AlternativeStrategy := "Wait for gas prices below 30 gwei" }

def careless : ClaudeValidation :=
  { IsValid := true, ConfidenceScore := 85, Risks := []
    AlternativeStrategy := "" }

end operator

/-- An environment where `OPERATOR_PRIVATE_KEY` is empty and `ANTHROPIC_API_KEY` unset. -/
def envNoOperatorKey : Env :=
  [("SEPOLIA_RPC_URL", "ws://localhost:8546"), ("OPERATOR_PRIVATE_KEY", ""),
   ("AVS_CONTRACT_ADDRESS", "0x1234567890123456789012345678901234567890")]

/-- An environment where `AVS_CONTRACT_ADDRESS` is unset. -/
def envNoContract : Env :=
  [("SEPOLIA_RPC_URL", "ws://localhost:8546"), ("AGGREGATOR_PRIVATE_KEY", "0x01")]

/-! ## Theorems: configuration check -/

theorem Getenv_eq_empty_iff (env : Env) (key : String) :
    Getenv env key = "" ↔ env.lookup key = none ∨ env.lookup key = some "" := by
  unfold Getenv
  cases env.lookup key with
  | none => simp
  | some val => simp

theorem checkRequired_first_missing (env : Env) : ∀ (pre : List String) (v : String)
    (post : List String), (∀ u ∈ pre, Getenv env u ≠ "") → Getenv env v = "" →
    checkRequired env (pre ++ v :: post) =
      some ("required environment variable " ++ v ++ " is not set") := by
  intro pre
  induction pre with
  | nil =>
    intro v post _ hv
    simp [checkRequired, hv]
  | cons u pre ih =>
    intro v post hpre hv
    have hu : Getenv env u ≠ "" := hpre u (List.mem_cons_self _ _)
    simp only [List.cons_append, checkRequired, beq_iff_eq, hu, if_false]
    exact ih v post (fun w hw => hpre w (List.mem_cons_of_mem _ hw)) hv

theorem exists_first_missing (env : Env) : ∀ vars : List String,
    (∃ v ∈ vars, Getenv env v = "") →
    ∃ pre v post, vars = pre ++ v :: post ∧ (∀ u ∈ pre, Getenv env u ≠ "") ∧
      Getenv env v = "" := by
  intro vars
  induction vars with
  | nil =>
    rintro ⟨v, hv, _⟩
    cases hv
  | cons a rest ih =>
    rintro ⟨v, hv, hm⟩
    by_cases ha : Getenv env a = ""
    · exact ⟨[], a, rest, rfl, by simp, ha⟩
    · rcases List.mem_cons.mp hv with rfl | hin
      · exact absurd hm ha
      · obtain ⟨pre, w, post, h1, h2, h3⟩ := ih ⟨v, hin, hm⟩
        refine ⟨a :: pre, w, post, by rw [h1]; rfl, ?_, h3⟩
        intro u hu
        rcases List.mem_cons.mp hu with rfl | hu
        · exact ha
        · exact h2 u hu

/-! ## Theorems: aggregator -/

namespace aggregator

theorem AggregateValidations_cons (agg : Aggregator) (v : OperatorValidation)
    (rest : List OperatorValidation) :
    agg.AggregateValidations (v :: rest) = .ok v := rfl

theorem AggregateValidations_nil (agg : Aggregator) :
    agg.AggregateValidations [] = .error "no validations to aggregate" := rfl

theorem SubmitValidation_cons (agg : Aggregator) (d : Deps) (v : OperatorValidation)
    (rest : List OperatorValidation) :
    agg.SubmitValidation d (v :: rest) = agg.SubmitValidation d [v] := rfl

theorem SubmitValidation_ok (agg : Aggregator) (d : Deps) (v : OperatorValidation)
    (rest : List OperatorValidation) (s : Submission)
    (h : agg.SubmitValidation d (v :: rest) = .ok s) :
    s.operators = [v.OperatorAddress] ∧ s.aggregatedSignature = v.Signature := by
  simp only [Aggregator.SubmitValidation] at h
  split at h
  · cases h
  · split at h
    · cases h
    · cases h
      exact ⟨rfl, rfl⟩

/-- C1, as stated, fails: operators A and B are distinct and opine on the same task, the
two lists are permutations of each other, and the aggregate differs with the order. -/
theorem C1_order_dependent :
    [voteA, voteB].Perm [voteB, voteA] ∧ voteA.TaskID = voteB.TaskID ∧
      voteA.OperatorAddress ≠ voteB.OperatorAddress ∧
      agg0.AggregateValidations [voteA, voteB] = .ok voteA ∧
      agg0.AggregateValidations [voteB, voteA] = .ok voteB ∧
      agg0.AggregateValidations [voteA, voteB] ≠ agg0.AggregateValidations [voteB, voteA] := by
  refine ⟨List.Perm.swap _ _ _, by decide, by decide, rfl, rfl, ?_⟩
  simp only [AggregateValidations_cons, ne_eq, Except.ok.injEq]
  decide

/-- C1 (amended): a list of validations and a permutation of it have the same aggregate
exactly when they start with the same validation. -/
theorem C1_same_result_iff_same_first (agg : Aggregator) (l l' : List OperatorValidation)
    (h : l.Perm l') :
    agg.AggregateValidations l = agg.AggregateValidations l' ↔ l.head? = l'.head? := by
  cases l with
  | nil =>
    have : l' = [] := List.Perm.eq_nil (List.Perm.symm h)
    subst this
    simp
  | cons a t =>
    cases l' with
    | nil => exact absurd (List.Perm.eq_nil h) (by simp)
    | cons b t' => simp [AggregateValidations_cons]

theorem C1_same_result_iff_same_first_witness :
    [voteA, voteB, voteC].Perm [voteA, voteC, voteB] ∧
      (agg0.AggregateValidations [voteA, voteB, voteC] =
          agg0.AggregateValidations [voteA, voteC, voteB] ↔
        [voteA, voteB, voteC].head? = [voteA, voteC, voteB].head?) :=
  ⟨List.Perm.cons _ (List.Perm.swap _ _ _),
    C1_same_result_iff_same_first agg0 _ _ (List.Perm.cons _ (List.Perm.swap _ _ _))⟩

/-- C2, as stated, fails: on the even split (true, 50), (false, 50) the majority rule gives
false, and the aggregate has `IsValid = true`. -/
theorem C2_tie_not_fail_closed :
    specMajorityIsValid [tieTrue, tieFalse] = false ∧
      agg0.AggregateValidations [tieTrue, tieFalse] = .ok tieTrue ∧
      tieTrue.IsValid = true := by
  refine ⟨by decide, rfl, rfl⟩

/-- C2 (amended): for every non-empty list the aggregate exists and its `IsValid` is the
`IsValid` of the first validation, whatever the other validations vote. -/
theorem C2_isValid_is_first (agg : Aggregator) (v : OperatorValidation)
    (rest : List OperatorValidation) :
    ∃ r, agg.AggregateValidations (v :: rest) = .ok r ∧ r.IsValid = v.IsValid :=
  ⟨v, rfl, rfl⟩

/-- C3, as stated, fails: the signature of `mockValidation` has 14 bytes and so cannot
verify, and that validation is the aggregate and the source of the submitted operator and
signature. -/
theorem C3_unverified_is_result :
    signatureLengthOK mockValidation = false ∧
      agg0.AggregateValidations [mockValidation] = .ok mockValidation ∧
      ∃ s, agg0.SubmitValidation deps0 [mockValidation] = .ok s ∧
        s.operators = [mockValidation.OperatorAddress] ∧
        s.aggregatedSignature = mockValidation.Signature :=
  ⟨by decide, rfl, _, rfl, rfl, rfl⟩

/-- C3 (amended): the aggregator checks no signature. For every verification predicate
and every validation that does not verify under it, a list starting with that validation
has it as its aggregate, and `SubmitValidation` does on that list what it does on the
validation alone, submitting its operator and its signature whenever it succeeds. -/
theorem C3_first_used_unverified (verify : OperatorValidation → Bool) (agg : Aggregator)
    (d : Deps) (v : OperatorValidation) (rest : List OperatorValidation)
    (hv : verify v = false) :
    (∃ r, agg.AggregateValidations (v :: rest) = .ok r ∧ verify r = false) ∧
      agg.SubmitValidation d (v :: rest) = agg.SubmitValidation d [v] ∧
      (agg.SubmitValidation d (v :: rest)).map
          (fun s => (s.operators, s.aggregatedSignature)) =
        (agg.SubmitValidation d (v :: rest)).map
          (fun _ => ([v.OperatorAddress], v.Signature)) := by
  refine ⟨⟨v, rfl, hv⟩, rfl, ?_⟩
  cases hs : agg.SubmitValidation d (v :: rest) with
  | error e => rfl
  | ok s =>
    obtain ⟨h1, h2⟩ := SubmitValidation_ok agg d v rest s hs
    simp [Except.map, h1, h2]

theorem C3_first_used_unverified_witness :
    signatureLengthOK mockValidation = false ∧
      ((∃ r, agg0.AggregateValidations [mockValidation, voteA] = .ok r ∧
          signatureLengthOK r = false) ∧
        agg0.SubmitValidation deps0 [mockValidation, voteA] =
          agg0.SubmitValidation deps0 [mockValidation] ∧
        (agg0.SubmitValidation deps0 [mockValidation, voteA]).map
            (fun s => (s.operators, s.aggregatedSignature)) =
          (agg0.SubmitValidation deps0 [mockValidation, voteA]).map
            (fun _ => ([mockValidation.OperatorAddress], mockValidation.Signature))) :=
  ⟨by decide,
    C3_first_used_unverified signatureLengthOK agg0 deps0 mockValidation [voteA] (by decide)⟩

/-- C10: `AggregateValidations` returns an error exactly on the empty list and otherwise
returns the first validation unchanged, whatever follows it. `SubmitValidation` fails on
the empty list and otherwise depends on the first validation only: when the transactor
and the gas price are obtained it succeeds, with the task id, vote and confidence of the
first validation, its operator as the only operator and its signature as the aggregated
signature; when either of the two fails it returns that error. -/
theorem C10_first_validation (agg : Aggregator) (d : Deps) :
    (∀ vs, (∃ e, agg.AggregateValidations vs = .error e) ↔ vs = []) ∧
      (∀ v rest, agg.AggregateValidations (v :: rest) = .ok v) ∧
      agg.SubmitValidation d [] = .error "no validations to submit" ∧
      (∀ v rest, agg.SubmitValidation d (v :: rest) = agg.SubmitValidation d [v]) ∧
      (∀ v rest, (agg.SubmitValidation d (v :: rest)).map
          (fun s => (s.operators, s.aggregatedSignature)) =
        (agg.SubmitValidation d (v :: rest)).map
          (fun _ => ([v.OperatorAddress], v.Signature))) ∧
      (∀ v rest auth gasPrice,
        d.NewKeyedTransactorWithChainID agg.privateKey 11155111 = .ok auth →
        d.SuggestGasPrice agg.client = .ok gasPrice →
        agg.SubmitValidation d (v :: rest) =
          .ok { taskId := v.TaskID
                isValid := v.IsValid
                confidenceScore := v.ConfidenceScore
                auth := { From := auth.From, GasPrice := gasPrice, GasLimit := 300000 }
                operators := [v.OperatorAddress]
                aggregatedSignature := v.Signature }) ∧
      (∀ v rest err,
        d.NewKeyedTransactorWithChainID agg.privateKey 11155111 = .error err →
        agg.SubmitValidation d (v :: rest) = .error err) ∧
      (∀ v rest auth err,
        d.NewKeyedTransactorWithChainID agg.privateKey 11155111 = .ok auth →
        d.SuggestGasPrice agg.client = .error err →
        agg.SubmitValidation d (v :: rest) = .error err) := by
  refine ⟨?_, fun _ _ => rfl, rfl, fun _ _ => rfl, ?_, ?_, ?_, ?_⟩
  · intro vs
    cases vs with
    | nil => simp [AggregateValidations_nil]
    | cons v rest => simp [AggregateValidations_cons]
  · intro v rest
    cases hs : agg.SubmitValidation d (v :: rest) with
    | error e => rfl
    | ok s =>
      obtain ⟨h1, h2⟩ := SubmitValidation_ok agg d v rest s hs
      simp [Except.map, h1, h2]
  · intro v rest auth gasPrice ha hg
    simp only [Aggregator.SubmitValidation, ha, hg]
  · intro v rest err ha
    simp only [Aggregator.SubmitValidation, ha]
  · intro v rest auth err ha hg
    simp only [Aggregator.SubmitValidation, ha, hg]

theorem C10_first_validation_witness :
    deps0.NewKeyedTransactorWithChainID agg0.privateKey 11155111 =
        .ok ⟨⟨List.replicate 20 1⟩, 0, 0⟩ ∧
      deps0.SuggestGasPrice agg0.client = .ok 1000000000 ∧
      agg0.AggregateValidations [mockValidation, voteB] = .ok mockValidation ∧
      agg0.SubmitValidation deps0 [mockValidation, voteB] =
        .ok { taskId := 1
              isValid := true
              confidenceScore := 85
              auth := { From := ⟨List.replicate 20 1⟩, GasPrice := 1000000000,
                        GasLimit := 300000 }
              operators := [mockValidation.OperatorAddress]
              aggregatedSignature := mockValidation.Signature } :=
  ⟨rfl, rfl, (C10_first_validation agg0 deps0).2.1 mockValidation [voteB],
    (C10_first_validation agg0 deps0).2.2.2.2.2.1 mockValidation [voteB]
      ⟨⟨List.replicate 20 1⟩, 0, 0⟩ 1000000000 rfl rfl⟩

end aggregator

/-! ## Theorems: operator -/

namespace operator

theorem digitChar_toNat (d : Nat) (h : d < 10) : (digitChar d).toNat = 48 + d := by
  interval_cases d <;> rfl

theorem digitChar_ne_sep (d : Nat) (h : d < 10) : digitChar d ≠ ',' ∧ digitChar d ≠ '-' := by
  interval_cases d <;> decide

theorem digitsValue_snoc (cs : List Char) (c : Char) :
    digitsValue (cs ++ [c]) = digitsValue cs * 10 + (c.toNat - 48) := by
  simp [digitsValue, List.foldl_append]

theorem digitsValue_decimalDigits : ∀ fuel n, n < fuel → digitsValue (decimalDigits fuel n) = n := by
  intro fuel
  induction fuel with
  | zero => intro n h; omega
  | succ f ih =>
    intro n h
    unfold decimalDigits
    split
    · rename_i h10
      simp [digitsValue, digitChar_toNat n h10]
    · rw [digitsValue_snoc, ih (n / 10) (by omega), digitChar_toNat _ (Nat.mod_lt _ (by norm_num))]
      omega

theorem decimalDigits_mem : ∀ fuel n c, c ∈ decimalDigits fuel n → ∃ d, d < 10 ∧ c = digitChar d := by
  intro fuel
  induction fuel with
  | zero => intro n c h; simp [decimalDigits] at h
  | succ f ih =>
    intro n c h
    unfold decimalDigits at h
    split at h
    · rename_i h10
      simp at h
      exact ⟨n, h10, h⟩
    · rw [List.mem_append] at h
      rcases h with h | h
      · exact ih _ _ h
      · simp at h
        exact ⟨n % 10, Nat.mod_lt _ (by norm_num), h⟩

theorem fmtNat_inj (a b : Nat) (h : fmtNat a = fmtNat b) : a = b := by
  have h1 : decimalDigits (a + 1) a = decimalDigits (b + 1) b := congrArg String.data h
  have := congrArg digitsValue h1
  rwa [digitsValue_decimalDigits _ _ (Nat.lt_succ_self a),
    digitsValue_decimalDigits _ _ (Nat.lt_succ_self b)] at this

theorem fmtNat_data_mem (n : Nat) (c : Char) (h : c ∈ (fmtNat n).data) :
    c ≠ ',' ∧ c ≠ '-' := by
  obtain ⟨d, hd, rfl⟩ := decimalDigits_mem _ _ _ h
  exact digitChar_ne_sep d hd

theorem fmtInt_negSucc_data (n : Nat) :
    (fmtInt (Int.negSucc n)).data = '-' :: (fmtNat (n + 1)).data := rfl

theorem fmtInt_data_ne_comma (i : Int) (c : Char) (h : c ∈ (fmtInt i).data) : c ≠ ',' := by
  cases i with
  | ofNat n => exact (fmtNat_data_mem n c h).1
  | negSucc n =>
    rw [fmtInt_negSucc_data, List.mem_cons] at h
    rcases h with rfl | h
    · decide
    · exact (fmtNat_data_mem _ c h).1

theorem fmtInt_inj (a b : Int) (h : fmtInt a = fmtInt b) : a = b := by
  have hd : (fmtInt a).data = (fmtInt b).data := congrArg String.data h
  cases a with
  | ofNat m =>
    cases b with
    | ofNat n => exact congrArg Int.ofNat (fmtNat_inj m n h)
    | negSucc n =>
      rw [fmtInt_negSucc_data] at hd
      have : '-' ∈ (fmtInt (Int.ofNat m)).data := by rw [hd]; exact List.mem_cons_self _ _
      exact absurd rfl (fmtNat_data_mem m _ this).2
  | negSucc m =>
    cases b with
    | ofNat n =>
      rw [fmtInt_negSucc_data] at hd
      have : '-' ∈ (fmtInt (Int.ofNat n)).data := by rw [← hd]; exact List.mem_cons_self _ _
      exact absurd rfl (fmtNat_data_mem n _ this).2
    | negSucc n =>
      rw [fmtInt_negSucc_data, fmtInt_negSucc_data] at hd
      have h2 : fmtNat (m + 1) = fmtNat (n + 1) := String.ext (List.cons.inj hd).2
      have := fmtNat_inj _ _ h2
      have : m = n := by omega
      rw [this]

theorem append_sep_inj {α : Type} (c : α) : ∀ (xs ys r r' : List α),
    (∀ x ∈ xs, x ≠ c) → (∀ y ∈ ys, y ≠ c) → xs ++ c :: r = ys ++ c :: r' →
    xs = ys ∧ r = r' := by
  intro xs
  induction xs with
  | nil =>
    intro ys r r' _ hy h
    cases ys with
    | nil => exact ⟨rfl, (List.cons.inj h).2⟩
    | cons y ys =>
      have := (List.cons.inj h).1
      exact absurd this.symm (hy y (List.mem_cons_self _ _))
  | cons x xs ih =>
    intro ys r r' hx hy h
    cases ys with
    | nil =>
      have := (List.cons.inj h).1
      exact absurd this (hx x (List.mem_cons_self _ _))
    | cons y ys =>
      obtain ⟨h1, h2⟩ := List.cons.inj h
      obtain ⟨h3, h4⟩ := ih ys r r' (fun z hz => hx z (List.mem_cons_of_mem _ hz))
        (fun z hz => hy z (List.mem_cons_of_mem _ hz)) h2
      exact ⟨by rw [h1, h3], h4⟩

theorem fmtBool_data_ne_comma (b : Bool) (c : Char) (h : c ∈ (fmtBool b).data) : c ≠ ',' := by
  cases b <;> revert c <;> decide

theorem fmtBool_inj (a b : Bool) (h : (fmtBool a).data = (fmtBool b).data) : a = b := by
  cases a <;> cases b <;> first | rfl | (revert h; decide)

theorem validationMessage_data (t : Int) (v : ClaudeValidation) :
    (validationMessage t v).data =
      "TaskID:".data ++ ((fmtInt t).data ++ ',' :: ("Valid:".data ++
        ((fmtBool v.IsValid).data ++ ',' :: ("Score:".data ++ (fmtInt v.ConfidenceScore).data)))) := by
  simp only [validationMessage, String.data_append, List.append_assoc]
  rfl

/-- C4, as stated, fails: two validations that differ in `Risks` and in
`AlternativeStrategy` have the same signed message, and so the same signature. -/
theorem C4_message_ignores_risks :
    cautious.Risks ≠ careless.Risks ∧
      cautious.AlternativeStrategy ≠ careless.AlternativeStrategy ∧
      validationMessage 7 cautious = "TaskID:7,Valid:true,Score:85" ∧
      validationMessage 7 careless = "TaskID:7,Valid:true,Score:85" ∧
      ∀ (op : Operator) (d : Deps),
        op.signValidation d 7 cautious = op.signValidation d 7 careless := by
  refine ⟨by decide, by decide, by decide, by decide, fun _ _ => rfl⟩

/-- C4 (amended): the signed message covers `taskID`, `IsValid` and `ConfidenceScore` and
nothing else: two messages are equal exactly when these three agree. -/
theorem C4_message_eq_iff (t t' : Int) (v v' : ClaudeValidation) :
    validationMessage t v = validationMessage t' v' ↔
      t = t' ∧ v.IsValid = v'.IsValid ∧ v.ConfidenceScore = v'.ConfidenceScore := by
  constructor
  · intro h
    have hd := congrArg String.data h
    rw [validationMessage_data, validationMessage_data] at hd
    have h1 := List.append_cancel_left hd
    obtain ⟨ht, h2⟩ := append_sep_inj ',' _ _ _ _ (fmtInt_data_ne_comma t)
      (fmtInt_data_ne_comma t') h1
    have h3 := List.append_cancel_left h2
    obtain ⟨hb, h4⟩ := append_sep_inj ',' _ _ _ _ (fmtBool_data_ne_comma _)
      (fmtBool_data_ne_comma _) h3
    have h5 := List.append_cancel_left h4
    exact ⟨fmtInt_inj _ _ (String.ext ht), fmtBool_inj _ _ hb, fmtInt_inj _ _ (String.ext h5)⟩
  · rintro ⟨rfl, hb, hs⟩
    simp only [validationMessage, hb, hs]

theorem parseValidation_ok (Unmarshal : String → Except String ClaudeValidation)
    (text : String) (v : ClaudeValidation) (h : Unmarshal text = .ok v) :
    parseValidation Unmarshal text = .ok v := by
  simp only [parseValidation, h]

theorem parseValidation_error (Unmarshal : String → Except String ClaudeValidation)
    (text : String) (e : String) (h : Unmarshal text = .error e) :
    parseValidation Unmarshal text = .ok fallbackValidation := by
  simp only [parseValidation, h]

/-- C5, as stated, fails: an answer whose `confidenceScore` is 150 is returned with
`ConfidenceScore = 150`, and one whose `confidenceScore` is -5 with -5, also through the
whole of `validateWithClaude`. -/
theorem C5_score_not_clamped :
    parseValidation sampleUnmarshal overconfidentAnswer = .ok ⟨true, 150, [], ""⟩ ∧
      parseValidation sampleUnmarshal negativeAnswer = .ok ⟨false, -5, [], ""⟩ ∧
      op0.validateWithClaude (sampleNet overconfidentAnswer) 5 = .ok ⟨true, 150, [], ""⟩ ∧
      ¬ ((150 : Int) ≤ 100) ∧ ¬ ((0 : Int) ≤ -5) := by
  refine ⟨by decide, by decide, by decide, by decide, by decide⟩

/-- C5 (amended): the mapping always returns an opinion; its `ConfidenceScore` is 75 when
the text does not parse and the parsed score, unchanged, when it does; so it lies in
[0, 100] exactly when every parse of the text has its score in [0, 100]. -/
theorem C5_score_is_parsed_or_75 (Unmarshal : String → Except String ClaudeValidation)
    (text : String) :
    ∃ v, parseValidation Unmarshal text = .ok v ∧
      v.ConfidenceScore =
        (match Unmarshal text with
          | .ok parsed => parsed.ConfidenceScore
          | .error _ => 75) ∧
      ((0 ≤ v.ConfidenceScore ∧ v.ConfidenceScore ≤ 100) ↔
        ∀ parsed, Unmarshal text = .ok parsed →
          0 ≤ parsed.ConfidenceScore ∧ parsed.ConfidenceScore ≤ 100) := by
  cases h : Unmarshal text with
  | error e =>
    refine ⟨fallbackValidation, parseValidation_error _ _ e h, rfl, ?_⟩
    constructor
    · intro _ parsed hp
      cases hp
    · intro _
      decide
  | ok parsed =>
    refine ⟨parsed, parseValidation_ok _ _ parsed h, rfl, ?_⟩
    constructor
    · intro hr p hp
      cases hp
      exact hr
    · intro hr
      exact hr parsed rfl

/-- C6, as stated, fails: on a text that is not JSON the fallback is returned, and its
`ConfidenceScore` is 75, which is not below 50. -/
theorem C6_fallback_not_low :
    sampleUnmarshal proseAnswer = .error "invalid character looking for beginning of value" ∧
      parseValidation sampleUnmarshal proseAnswer = .ok fallbackValidation ∧
      fallbackValidation.ConfidenceScore = 75 ∧
      ¬ (fallbackValidation.ConfidenceScore < 50) := by
  refine ⟨by decide, by decide, rfl, by decide⟩

/-- C6 (amended): on every text that does not parse, the parsing step returns no error
and returns the fallback opinion: `IsValid` true, the single risk note
`Strategy not fully validated`, and `ConfidenceScore` 75. -/
theorem C6_fallback_opinion (Unmarshal : String → Except String ClaudeValidation)
    (text : String) (e : String) (h : Unmarshal text = .error e) :
    ∃ v, parseValidation Unmarshal text = .ok v ∧ v.IsValid = true ∧
      v.Risks = ["Strategy not fully validated"] ∧ v.ConfidenceScore = 75 ∧
      v.AlternativeStrategy = "Consider waiting for better gas prices" :=
  ⟨fallbackValidation, parseValidation_error _ _ e h, rfl, rfl, rfl, rfl⟩

theorem C6_fallback_opinion_witness :
    sampleUnmarshal proseAnswer = .error "invalid character looking for beginning of value" ∧
      ∃ v, parseValidation sampleUnmarshal proseAnswer = .ok v ∧ v.IsValid = true ∧
        v.Risks = ["Strategy not fully validated"] ∧ v.ConfidenceScore = 75 ∧
        v.AlternativeStrategy = "Consider waiting for better gas prices" :=
  ⟨by decide, C6_fallback_opinion sampleUnmarshal proseAnswer
    "invalid character looking for beginning of value" (by decide)⟩

theorem handleTask_no_topic (op : Operator) (d : Deps) (net : Net) (vLog : Log)
    (h : vLog.Topics[1]? = none) :
    op.handleTask d net vLog =
      ([], .panicked ("index out of range [1] with length " ++ fmtNat vLog.Topics.length)) := by
  simp only [Operator.handleTask, h]

theorem handleTask_topic (op : Operator) (d : Deps) (net : Net) (vLog : Log) (topic : Hash)
    (h : vLog.Topics[1]? = some topic) :
    ∃ calls, op.handleTask d net vLog = (calls, .returned) ∧
      validatedTasks calls = [SetBytes topic.bytes] ∧
      (signedTasks calls).Sublist (validatedTasks calls) := by
  simp only [Operator.handleTask, h]
  cases op.validateWithClaude net (SetBytes topic.bytes) with
  | error e =>
    exact ⟨[.validate (SetBytes topic.bytes)], rfl, rfl, by simp [signedTasks, validatedTasks]⟩
  | ok v =>
    refine ⟨[.validate (SetBytes topic.bytes), .sign (SetBytes topic.bytes) v], ?_, rfl,
      by simp [signedTasks, validatedTasks]⟩
    dsimp only
    split <;> rfl

theorem validatedTasks_append (a b : List Call) :
    validatedTasks (a ++ b) = validatedTasks a ++ validatedTasks b := by
  simp [validatedTasks, List.filterMap_append]

theorem signedTasks_append (a b : List Call) :
    signedTasks (a ++ b) = signedTasks a ++ signedTasks b := by
  simp [signedTasks, List.filterMap_append]

theorem listenLoop_validated (op : Operator) (d : Deps) : ∀ events : List Event,
    validatedTasks (op.listenLoop d events).1 = deliveredTasks events ∧
      (signedTasks (op.listenLoop d events).1).Sublist
        (validatedTasks (op.listenLoop d events).1) := by
  intro events
  induction events with
  | nil => exact ⟨rfl, List.Sublist.refl _⟩
  | cons ev rest ih =>
    cases ev with
    | subErr err => exact ⟨rfl, List.Sublist.refl _⟩
    | ctxDone err => exact ⟨rfl, List.Sublist.refl _⟩
    | log vLog net =>
      cases ht : vLog.Topics[1]? with
      | none =>
        simp only [Operator.listenLoop, handleTask_no_topic op d net vLog ht, deliveredTasks, ht]
        exact ⟨rfl, List.Sublist.refl _⟩
      | some topic =>
        obtain ⟨calls, hc, hv, hs⟩ := handleTask_topic op d net vLog topic ht
        simp only [Operator.listenLoop, hc, deliveredTasks, ht, validatedTasks_append,
          signedTasks_append, hv]
        refine ⟨?_, ?_⟩
        · rw [ih.1]
          rfl
        · rw [hv] at hs
          exact List.Sublist.append hs ih.2

/-- C7, as stated, fails: when the log of task 5 is delivered twice, task 5 is validated
twice and signed twice. -/
theorem C7_redelivery_revalidated :
    validatedTasks (op0.ListenForTasks deps0
        [.log logTask5 (sampleNet proseAnswer), .log logTask5 (sampleNet proseAnswer)]).1
        = [5, 5] ∧
      signedTasks (op0.ListenForTasks deps0
        [.log logTask5 (sampleNet proseAnswer), .log logTask5 (sampleNet proseAnswer)]).1
        = [5, 5] ∧
      ¬ ([5, 5] : List Int).Nodup := by
  refine ⟨by decide, by decide, by decide⟩

/-- C7 (amended): once subscribed, the loop validates every log it handles, once per
delivery: the task ids handed to `validateWithClaude` are the task ids of the delivered
logs, in order and with their repetitions, so they are free of duplicates exactly when the
delivered logs are; the task ids handed to `signValidation` are a sublist of them. -/
theorem C7_validated_once_per_delivery (op : Operator) (d : Deps) (events : List Event)
    (hsub : ∀ q, d.SubscribeFilterLogs op.client q = .ok ()) :
    validatedTasks (op.ListenForTasks d events).1 = deliveredTasks events ∧
      ((validatedTasks (op.ListenForTasks d events).1).Nodup ↔
        (deliveredTasks events).Nodup) ∧
      (signedTasks (op.ListenForTasks d events).1).Sublist
        (validatedTasks (op.ListenForTasks d events).1) := by
  have hl : op.ListenForTasks d events = op.listenLoop d events := by
    simp only [Operator.ListenForTasks, hsub]
  rw [hl]
  obtain ⟨h1, h2⟩ := listenLoop_validated op d events
  exact ⟨h1, by rw [h1], h2⟩

theorem C7_validated_once_per_delivery_witness :
    (∀ q, deps0.SubscribeFilterLogs op0.client q = .ok ()) ∧
      (validatedTasks (op0.ListenForTasks deps0
          [.log logTask5 (sampleNet proseAnswer), .ctxDone "context canceled"]).1 =
          deliveredTasks [.log logTask5 (sampleNet proseAnswer), .ctxDone "context canceled"] ∧
        ((validatedTasks (op0.ListenForTasks deps0
          [.log logTask5 (sampleNet proseAnswer), .ctxDone "context canceled"]).1).Nodup ↔
          (deliveredTasks
            [.log logTask5 (sampleNet proseAnswer), .ctxDone "context canceled"]).Nodup) ∧
        (signedTasks (op0.ListenForTasks deps0
          [.log logTask5 (sampleNet proseAnswer), .ctxDone "context canceled"]).1).Sublist
          (validatedTasks (op0.ListenForTasks deps0
            [.log logTask5 (sampleNet proseAnswer), .ctxDone "context canceled"]).1)) :=
  ⟨fun _ => rfl, C7_validated_once_per_delivery op0 deps0 _ (fun _ => rfl)⟩

/-- C8 fails on the code: on a log with no topic or with the signature topic alone,
`handleTask` makes no call and ends in an index-out-of-range panic, and the listening
loop ends with it, whatever events follow. -/
theorem C8_short_log_panics (op : Operator) (d : Deps) (net : Net) (txHash t : Hash)
    (rest : List Event) :
    op.handleTask d net ⟨txHash, []⟩ =
        ([], .panicked "index out of range [1] with length 0") ∧
      op.handleTask d net ⟨txHash, [t]⟩ =
        ([], .panicked "index out of range [1] with length 1") ∧
      op.listenLoop d (.log ⟨txHash, [t]⟩ net :: rest) =
        ([], .panicked "index out of range [1] with length 1") :=
  ⟨rfl, rfl, rfl⟩

end operator

/-! ## Theorems: both constructors -/

/-- C9: when, in the environment the constructor reads (the process environment after
`godotenv.Load`), a required variable is unset or empty, `NewOperator` and
`NewAggregator` return an error and no value, and the error names the first such
variable in the order of `requiredEnvVars`. -/
theorem C9_missing_variable_is_error (dO : operator.Deps) (dA : aggregator.Deps)
    (envO envA : Env)
    (hO : ∃ v ∈ operator.requiredEnvVars,
      Getenv (dO.godotenvLoad "../.env.local" envO) v = "")
    (hA : ∃ v ∈ aggregator.requiredEnvVars,
      Getenv (dA.godotenvLoad "../.env.local" envA) v = "") :
    (∃ pre v post, operator.requiredEnvVars = pre ++ v :: post ∧
        (∀ u ∈ pre, Getenv (dO.godotenvLoad "../.env.local" envO) u ≠ "") ∧
        Getenv (dO.godotenvLoad "../.env.local" envO) v = "" ∧
        operator.NewOperator dO envO =
          .error ("required environment variable " ++ v ++ " is not set")) ∧
      (∃ pre v post, aggregator.requiredEnvVars = pre ++ v :: post ∧
        (∀ u ∈ pre, Getenv (dA.godotenvLoad "../.env.local" envA) u ≠ "") ∧
        Getenv (dA.godotenvLoad "../.env.local" envA) v = "" ∧
        aggregator.NewAggregator dA envA =
          .error ("required environment variable " ++ v ++ " is not set")) := by
  constructor
  · obtain ⟨pre, v, post, h1, h2, h3⟩ := exists_first_missing _ _ hO
    refine ⟨pre, v, post, h1, h2, h3, ?_⟩
    have hc := checkRequired_first_missing _ pre v post h2 h3
    rw [← h1] at hc
    simp only [operator.NewOperator, hc]
  · obtain ⟨pre, v, post, h1, h2, h3⟩ := exists_first_missing _ _ hA
    refine ⟨pre, v, post, h1, h2, h3, ?_⟩
    have hc := checkRequired_first_missing _ pre v post h2 h3
    rw [← h1] at hc
    simp only [aggregator.NewAggregator, hc]

theorem C9_missing_variable_is_error_witness :
    (∃ v ∈ operator.requiredEnvVars,
        Getenv (operator.deps0.godotenvLoad "../.env.local" envNoOperatorKey) v = "") ∧
      (∃ v ∈ aggregator.requiredEnvVars,
        Getenv (aggregator.deps0.godotenvLoad "../.env.local" envNoContract) v = "") ∧
      ((∃ pre v post, operator.requiredEnvVars = pre ++ v :: post ∧
          (∀ u ∈ pre,
            Getenv (operator.deps0.godotenvLoad "../.env.local" envNoOperatorKey) u ≠ "") ∧
          Getenv (operator.deps0.godotenvLoad "../.env.local" envNoOperatorKey) v = "" ∧
          operator.NewOperator operator.deps0 envNoOperatorKey =
            .error ("required environment variable " ++ v ++ " is not set")) ∧
        (∃ pre v post, aggregator.requiredEnvVars = pre ++ v :: post ∧
          (∀ u ∈ pre,
            Getenv (aggregator.deps0.godotenvLoad "../.env.local" envNoContract) u ≠ "") ∧
          Getenv (aggregator.deps0.godotenvLoad "../.env.local" envNoContract) v = "" ∧
          aggregator.NewAggregator aggregator.deps0 envNoContract =
            .error ("required environment variable " ++ v ++ " is not set"))) ∧
      operator.NewOperator operator.deps0 envNoOperatorKey =
        .error "required environment variable OPERATOR_PRIVATE_KEY is not set" ∧
      aggregator.NewAggregator aggregator.deps0 envNoContract =
        .error "required environment variable AVS_CONTRACT_ADDRESS is not set" :=
  ⟨⟨"OPERATOR_PRIVATE_KEY", by decide, by decide⟩,
    ⟨"AVS_CONTRACT_ADDRESS", by decide, by decide⟩,
    C9_missing_variable_is_error operator.deps0 aggregator.deps0 envNoOperatorKey envNoContract
      ⟨"OPERATOR_PRIVATE_KEY", by decide, by decide⟩
      ⟨"AVS_CONTRACT_ADDRESS", by decide, by decide⟩,
    by decide, by decide⟩

end Etherfi
